import Mathlib

/-!
Verification of the prompt-manager-cli selector core.

This file gives a shallow embedding of the interactive selector state
machine (`internal/ui`), its fallback numbered selector, and the fuzzy
ranking engine it consumes, and proves the specified properties about
them.  Pure Go functions become Lean functions; Go strings are modelled
as `String` for names and `List Char` for the mutable query/input text
(Go manipulates the query rune-by-rune); Go `int` becomes `Int`, with
Go's truncated `%` rendered as `Int.tmod`.
-/

namespace PMC

/-- A prompt record (`prompt.Prompt` in the source).  The Go struct also
carries a `FrontMatter map[string]any` field holding dynamically typed
parsed YAML; it is consulted only by the renderer, which none of the
verified operations touch, so it is omitted from the embedding. -/
structure Prompt where
  Name : String
  Path : String
  Content : String
  Tags : List String
deriving DecidableEq, Repr

instance : Inhabited Prompt := ⟨⟨"", "", "", []⟩⟩

/-- `search.Options` from the source: the ranking result cap. -/
structure SearchOptions where
  MaxResults : Int
deriving DecidableEq, Repr

/-- `ui.Options` from the source: display truncation length. -/
structure UIOptions where
  TruncateLength : Int
deriving DecidableEq, Repr

/-- `ui.normalizeOptions`: non-positive truncate lengths fall back to 120. -/
def normalizeOptions (opts : UIOptions) : UIOptions :=
  if opts.TruncateLength ≤ 0 then { TruncateLength := 120 } else opts

/-- The whitespace predicate of Go's `unicode.IsSpace` restricted to the
code points it lists explicitly (ASCII whitespace, NEL, NBSP); the
queries the selector handles are typed text, for which this coincides
with Go. -/
def isSpaceGo (c : Char) : Bool :=
  c = ' ' || c = '\t' || c = '\n' || c = Char.ofNat 11 || c = Char.ofNat 12 ||
    c = Char.ofNat 13 || c = Char.ofNat 0x85 || c = Char.ofNat 0xA0

/-- `strings.TrimSpace` on a rune sequence. -/
def trimSpace (s : List Char) : List Char :=
  ((s.dropWhile isSpaceGo).reverse.dropWhile isSpaceGo).reverse

/-- Name order used by `ui.sortPrompts` (`sort.Slice` with `Name <`):
Go compares strings byte-wise over UTF-8, which coincides with
lexicographic comparison of the code-point sequences, embedded here as
the lexicographic order on `List Char`. -/
def promptLe (a b : Prompt) : Prop := a.Name.toList ≤ b.Name.toList

instance : DecidableRel promptLe := fun a b => by
  unfold promptLe; infer_instance

instance : IsTotal Prompt promptLe :=
  ⟨fun a b => le_total a.Name.toList b.Name.toList⟩

instance : IsTrans Prompt promptLe := ⟨fun _ _ _ h h2 => le_trans h h2⟩

/-- `ui.sortPrompts`: sort prompts by ascending name. -/
def sortPrompts (ps : List Prompt) : List Prompt :=
  List.insertionSort promptLe ps

/-- Separator characters carrying the word-boundary bonus (space,
hyphen, underscore). -/
def sepChar (c : Char) : Bool := c = ' ' || c = '-' || c = '_'

/-- Whether the previous name character (if any) is a separator. -/
def isSepAfter : Option Char → Bool
  | some c => sepChar c
  | none => false

/-- Modelled from the spec: the scoring recursion of the fuzzy ranking
engine (package `internal/search`, whose source is not available).  It
matches the query characters greedily left-to-right against the name,
case-insensitively, and accumulates the spec's score components: base
+1 per matched character, +1 contiguity per consecutively matched pair,
+2 when the match begins at name position 0, +1 per matched character
immediately following a separator, and +1 per exact-case match.
Returns `none` when the query is not a case-insensitive subsequence of
the name. -/
def scoreGo (q name : List Char) (prevMatched : Bool) (prev : Option Char)
    (pos : Nat) : Option Nat :=
  match q, name with
  | [], _ => some 0
  | _ :: _, [] => none
  | qc :: qs, nc :: ns =>
    if qc.toLower = nc.toLower then
      let bonus := 1 + (if prevMatched then 1 else 0) + (if pos = 0 then 2 else 0)
        + (if isSepAfter prev then 1 else 0) + (if qc = nc then 1 else 0)
      (scoreGo qs ns true (some nc) (pos + 1)).map (bonus + ·)
    else
      scoreGo (qc :: qs) ns false (some nc) (pos + 1)

/-- Modelled from the spec: the match score of a query against a
candidate name. -/
def matchScore (q name : List Char) : Option Nat :=
  scoreGo q name false none 0

/-- Modelled from the spec: the result order of the ranking engine,
descending score with ties broken by ascending name. -/
def scoreLe (a b : Prompt × Nat) : Prop :=
  b.2 < a.2 ∨ (a.2 = b.2 ∧ a.1.Name.toList ≤ b.1.Name.toList)

instance : DecidableRel scoreLe := fun a b => by
  unfold scoreLe; infer_instance

/-- Modelled from the spec: `search.Search`, the fuzzy ranking engine
(package `internal/search` is not among the available sources; this
definition follows spec section 4.1).  An empty query yields every
candidate sorted by name; a non-empty query scores each candidate,
drops the non-matches, sorts by descending score with ascending-name
tie-break, and truncates to `MaxResults` when that cap is positive. -/
def searchSearch (prompts : List Prompt) (query : List Char)
    (opts : SearchOptions) : List Prompt :=
  if query = [] then sortPrompts prompts
  else
    let scored := prompts.filterMap
      (fun p => (matchScore query p.Name.toList).map (fun s => (p, s)))
    let ranked := (List.insertionSort scoreLe scored).map Prod.fst
    if opts.MaxResults > 0 then ranked.take opts.MaxResults.toNat else ranked

/-- The selector input mode (`ui.selectorMode`): `modeFilter` is the
Typing state, `modeNavigate` the Navigating state. -/
inductive SelectorMode where
  | modeFilter
  | modeNavigate
deriving DecidableEq, Repr

/-- The selector state (`ui.selectorModel`). -/
structure SelectorModel where
  allPrompts : List Prompt
  filtered : List Prompt
  cursor : Int
  cancelled : Bool
  width : Int
  height : Int
  ready : Bool
  query : List Char
  filterOpts : SearchOptions
  uiOpts : UIOptions
  mode : SelectorMode
deriving DecidableEq, Repr

/-- `selectorModel.toggleMode`: flip between typing and navigation. -/
def toggleMode (m : SelectorModel) : SelectorModel :=
  if m.mode = .modeFilter then { m with mode := .modeNavigate }
  else { m with mode := .modeFilter }

/-- First half of `selectorModel.applyQuery`: store the query and
recompute the filtered view — the full sorted candidate list for a
blank trimmed query, and otherwise the ranking engine's output with the
result cap clamped to the candidate count. -/
def applyQueryFilter (m : SelectorModel) (query : List Char) : SelectorModel :=
  let trimmed := trimSpace query
  let m1 := { m with query := query }
  if trimmed = [] then
    { m1 with filtered := sortPrompts m1.allPrompts }
  else
    let opts : SearchOptions :=
      if m1.filterOpts.MaxResults ≤ 0 ∨
          m1.filterOpts.MaxResults > (m1.allPrompts.length : Int) then
        { MaxResults := (m1.allPrompts.length : Int) }
      else m1.filterOpts
    { m1 with filtered := searchSearch m1.allPrompts trimmed opts }

/-- Second half of `selectorModel.applyQuery`: the cursor fix-up that
follows the recomputation — 0 when the view is empty, clamped to the
last index when out of bounds, and reset to 0 whenever the trimmed
query is non-empty. -/
def fixCursor (m2 : SelectorModel) (trimmed : List Char) : SelectorModel :=
  if m2.filtered = [] then { m2 with cursor := 0 }
  else
    let m3 :=
      if m2.cursor ≥ (m2.filtered.length : Int) then
        { m2 with cursor := (m2.filtered.length : Int) - 1 }
      else m2
    if trimmed ≠ [] then { m3 with cursor := 0 } else m3

/-- `selectorModel.applyQuery`: the filter recomputation followed by
the cursor fix-up. -/
def applyQuery (m : SelectorModel) (query : List Char) : SelectorModel :=
  fixCursor (applyQueryFilter m query) (trimSpace query)

/-- `selectorModel.backspace`: drop the last query rune (no-op on an
empty query) and re-filter. -/
def backspace (m : SelectorModel) : SelectorModel :=
  if m.query = [] then m else applyQuery m m.query.dropLast

/-- `selectorModel.clearQuery`: blank the query (no-op when already
empty) and re-filter. -/
def clearQuery (m : SelectorModel) : SelectorModel :=
  if m.query = [] then m else applyQuery m []

/-- `selectorModel.moveUp`: no-op on an empty view; wraps from index 0
to the last index. -/
def moveUp (m : SelectorModel) : SelectorModel :=
  if m.filtered = [] then m
  else if m.cursor = 0 then { m with cursor := (m.filtered.length : Int) - 1 }
  else { m with cursor := m.cursor - 1 }

/-- `selectorModel.moveDown`: no-op on an empty view; advances modulo
the view length (Go's `%` is truncated division remainder, `Int.tmod`). -/
def moveDown (m : SelectorModel) : SelectorModel :=
  if m.filtered = [] then m
  else { m with cursor := Int.tmod (m.cursor + 1) (m.filtered.length : Int) }

/-- `ui.isDigits`: non-empty and every rune in `0`..`9`. -/
def isDigits (rs : List Char) : Bool :=
  !rs.isEmpty && rs.all (fun r => '0' ≤ r && r ≤ '9')

/-- Value of a digit string. -/
def digitsToNat (rs : List Char) : Nat :=
  rs.foldl (fun n c => n * 10 + (c.toNat - '0'.toNat)) 0

/-- `strconv.Atoi`: optional sign, then at least one digit, rejecting
values outside the 64-bit `int` range (Go returns an error there, and
the callers only use the value when the error is nil). -/
def atoiGo (s : List Char) : Option Int :=
  match s with
  | [] => none
  | c :: rest =>
    let digits := if c = '-' ∨ c = '+' then rest else s
    if isDigits digits then
      let v : Int := (digitsToNat digits : Nat)
      let v := if c = '-' then -v else v
      if v < -(2 ^ 63) ∨ v > 2 ^ 63 - 1 then none else some v
    else none

/-- `selectorModel.handleRunes`: in navigation mode a single `j`/`J`
or `k`/`K` moves the cursor and everything else is ignored; in typing
mode an all-digit input against an empty query is interpreted as a
1-based jump (moving the cursor when the parsed index is in range,
doing nothing otherwise) and is consumed either way; any other input is
appended to the query and re-filters. -/
def handleRunes (m : SelectorModel) (rs : List Char) : SelectorModel :=
  if rs = [] then m
  else if m.mode = .modeNavigate then
    if rs.length = 1 then
      if rs = ['j'] ∨ rs = ['J'] then moveDown m
      else if rs = ['k'] ∨ rs = ['K'] then moveUp m
      else m
    else m
  else if m.query = [] ∧ isDigits rs then
    match atoiGo rs with
    | some idx =>
      if 1 ≤ idx ∧ idx ≤ (m.filtered.length : Int) then
        { m with cursor := idx - 1 }
      else m
    | none => m
  else applyQuery m (m.query ++ rs)

/-- The key messages the selector handles (`tea.KeyMsg`).  `runes` is a
`tea.KeyRunes` message carrying typed characters; the remaining
constructors are the special keys whose `String()` forms appear in the
`Update` switch. -/
inductive KeyMsg where
  | esc
  | ctrlC
  | backspaceKey
  | deleteKey
  | ctrlH
  | enter
  | up
  | ctrlP
  | down
  | ctrlN
  | ctrlU
  | runes (rs : List Char)
deriving DecidableEq, Repr

/-- `tea.KeyMsg.String()`: the name of a special key, or the content of
a runes message. -/
def KeyMsg.string : KeyMsg → List Char
  | .esc => "esc".toList
  | .ctrlC => "ctrl+c".toList
  | .backspaceKey => "backspace".toList
  | .deleteKey => "delete".toList
  | .ctrlH => "ctrl+h".toList
  | .enter => "enter".toList
  | .up => "up".toList
  | .ctrlP => "ctrl+p".toList
  | .down => "down".toList
  | .ctrlN => "ctrl+n".toList
  | .ctrlU => "ctrl+u".toList
  | .runes rs => rs

/-- The runes of a message when it is a runes message, else `[]`
(mirrors the `msg.Type == tea.KeyRunes && len(msg.Runes) > 0` check). -/
def KeyMsg.runesOf : KeyMsg → List Char
  | .runes rs => rs
  | _ => []

/-- The messages the selector handles: key events and resizes. -/
inductive Msg where
  | key (k : KeyMsg)
  | windowSize (w h : Int)
deriving DecidableEq, Repr

/-- The code run after the key switch in `selectorModel.Update` for the
cases that do not return early: runes messages with content go through
`handleRunes`. -/
def afterSwitch (m : SelectorModel) (k : KeyMsg) : SelectorModel × Bool :=
  if k.runesOf ≠ [] then (handleRunes m k.runesOf, false) else (m, false)

/-- `selectorModel.Update`: the event handler.  The returned `Bool` is
true when the command is `tea.Quit`.  The switch dispatches on the key
message string, so e.g. pasted runes spelling a special-key name follow
that case, exactly as in the source; `up`/`down` and their control-key
synonyms are honored regardless of mode, `backspace`/`ctrl+u` only in
typing mode, and `j`/`k` runes move the cursor only in navigation
mode. -/
def update (m : SelectorModel) (msg : Msg) : SelectorModel × Bool :=
  match msg with
  | .windowSize w h => ({ m with width := w, height := h, ready := true }, false)
  | .key k =>
    let s := k.string
    if s = "esc".toList then (toggleMode m, false)
    else if s = "ctrl+c".toList then ({ m with cancelled := true }, true)
    else if s = "backspace".toList ∨ s = "delete".toList ∨ s = "ctrl+h".toList then
      if m.mode = .modeNavigate then (m, false) else (backspace m, false)
    else if s = "enter".toList then
      (if m.filtered = [] then { m with cancelled := true } else m, true)
    else if s = "up".toList ∨ s = "ctrl+p".toList then afterSwitch (moveUp m) k
    else if s = "down".toList ∨ s = "ctrl+n".toList then afterSwitch (moveDown m) k
    else if s = "ctrl+u".toList then
      afterSwitch (if m.mode = .modeNavigate then m else clearQuery m) k
    else if s = "j".toList then
      if m.mode = .modeNavigate then (moveDown m, false) else afterSwitch m k
    else if s = "k".toList then
      if m.mode = .modeNavigate then (moveUp m, false) else afterSwitch m k
    else afterSwitch m k

/-- `ui.newSelectorModel`: construct the session state from the
candidate snapshot and the seed query (Go zero values for the remaining
fields), then run the filter step once. -/
def newSelectorModel (prompts : List Prompt) (initialQuery : List Char)
    (opts : SearchOptions) (uiOpts : UIOptions) : SelectorModel :=
  applyQuery
    { allPrompts := prompts
      filtered := []
      cursor := 0
      cancelled := false
      width := 0
      height := 0
      ready := false
      query := []
      filterOpts := opts
      uiOpts := normalizeOptions uiOpts
      mode := .modeFilter }
    initialQuery

/-- The caller-visible outcome of one interactive session as computed
by `runInteractiveSelector` from the final model: `ErrInvalidSelection`
when the session was cancelled or the filtered view is empty, otherwise
the prompt under the cursor. -/
inductive TUIResult where
  | selected (p : Prompt)
  | invalidSelection
deriving DecidableEq, Repr

/-- The result extraction at the end of `runInteractiveSelector`. -/
def interactiveOutcome (m : SelectorModel) : TUIResult :=
  if m.cancelled ∨ m.filtered = [] then .invalidSelection
  else .selected (m.filtered.getD m.cursor.toNat default)

/-- Result of the non-interactive numbered selector
(`ui.selectPromptFallback`).  `crash` marks the index-out-of-range
runtime panic Go would hit returning `prompts[0]` of an empty slice. -/
inductive FallbackResult where
  | ok (p : Prompt)
  | errInvalidSelection
  | crash
deriving DecidableEq, Repr

/-- Lower-cased rune sequence (`strings.ToLower`; ASCII-exact). -/
def lowerChars (s : List Char) : List Char := s.map Char.toLower

/-- `strings.EqualFold`, modelled as equality after lower-casing
(exact on ASCII names). -/
def equalFold (a b : List Char) : Bool := lowerChars a = lowerChars b

/-- Whether `pre` is a prefix of `s`. -/
def startsWithList : List Char → List Char → Bool
  | _, [] => true
  | [], _ :: _ => false
  | c :: cs, d :: ds => c = d && startsWithList cs ds

/-- `strings.Contains`: `sub` occurs contiguously inside `s`. -/
def containsList (s sub : List Char) : Bool :=
  match s with
  | [] => startsWithList [] sub
  | _ :: cs => startsWithList s sub || containsList cs sub

/-- The name-matching loop at the end of `selectPromptFallback`: scan
the prompts in order, returning the first case-fold-equal name
immediately, collecting the case-insensitive substring matches, and
falling back to the first collected match (or `ErrInvalidSelection`
when there is none). -/
def fallbackNameMatch (prompts : List Prompt) (text : List Char)
    (acc : List Prompt) : FallbackResult :=
  match prompts with
  | [] =>
    match acc with
    | [] => .errInvalidSelection
    | p :: _ => .ok p
  | p :: rest =>
    if equalFold p.Name.toList text then .ok p
    else if containsList (lowerChars p.Name.toList) (lowerChars text) then
      fallbackNameMatch rest text (acc ++ [p])
    else fallbackNameMatch rest text acc

/-- `ui.selectPromptFallback`: the numbered selector.  `line` is the
first line the input scanner yields (`none` when the stream is
exhausted).  No line or a blank trimmed line selects the first prompt;
a parsed number is a 1-based index rejected with `ErrInvalidSelection`
when out of range; otherwise name matching applies. -/
def selectPromptFallback (prompts : List Prompt) (line : Option (List Char)) :
    FallbackResult :=
  let firstPrompt : FallbackResult :=
    match prompts with
    | [] => .crash
    | p :: _ => .ok p
  match line with
  | none => firstPrompt
  | some raw =>
    let text := trimSpace raw
    if text = [] then firstPrompt
    else
      match atoiGo text with
      | some index =>
        if index < 1 ∨ index > (prompts.length : Int) then .errInvalidSelection
        else
          match prompts.get? (index - 1).toNat with
          | some p => .ok p
          | none => .crash
      | none => fallbackNameMatch prompts text []

/-- The outcome of running the bubbletea program inside
`runInteractiveSelector`: either it completes with a final model whose
extraction is a `TUIResult`, or the program itself fails (I/O error),
in which case `SelectPromptWithQuery` falls back to the numbered
selector. -/
inductive TUIRun where
  | completed (r : TUIResult)
  | progError
deriving DecidableEq, Repr

/-- Result of `ui.SelectPromptWithQuery`. -/
inductive SelectResult where
  | ok (p : Prompt)
  | errNoPrompts
  | errInvalidSelection
  | crash
deriving DecidableEq, Repr

/-- `ui.SelectPromptWithQuery`.  The terminal check and the interactive
session are I/O and enter as the parameters `isTerm` and `tui`; the
`fallbackLine` parameter is the first input line available to the
numbered fallback selector.  An empty prompt list is refused with
`ErrNoPrompts` before anything else happens; otherwise, on a terminal,
the interactive result is returned (with `ErrInvalidSelection` passed
through and any other failure falling back), and off-terminal the
fallback runs against the seeded search results when the trimmed
initial query matches anything, else against the full list. -/
def selectPromptWithQuery (prompts : List Prompt) (initialQuery : List Char)
    (opts : SearchOptions) (uiOpts : UIOptions) (isTerm : Bool)
    (tui : TUIRun) (fallbackLine : Option (List Char)) : SelectResult :=
  if prompts = [] then .errNoPrompts
  else
    let _uiOpts := normalizeOptions uiOpts
    let trimmed := trimSpace initialQuery
    let display :=
      if trimmed ≠ [] ∧ searchSearch prompts trimmed opts ≠ [] then
        searchSearch prompts trimmed opts
      else prompts
    let fallback : SelectResult :=
      match selectPromptFallback display fallbackLine with
      | .ok p => .ok p
      | .errInvalidSelection => .errInvalidSelection
      | .crash => .crash
    if isTerm then
      match tui with
      | .completed (.selected p) => .ok p
      | .completed .invalidSelection => .errInvalidSelection
      | .progError => fallback
    else fallback

/-- The selector state invariant: the cursor is a valid index into the
filtered view whenever the view is non-empty and pinned at 0 when it is
empty. -/
def Inv (m : SelectorModel) : Prop :=
  0 ≤ m.cursor ∧
    (m.filtered ≠ [] → m.cursor < (m.filtered.length : Int)) ∧
    (m.filtered = [] → m.cursor = 0)

instance (m : SelectorModel) : Decidable (Inv m) := by
  unfold Inv; infer_instance

/-! Concrete fixtures used by witnesses and counterexamples. -/

/-- A concrete prompt. -/
def pAlpha : Prompt := { Name := "alpha", Path := "", Content := "", Tags := [] }

/-- A concrete prompt. -/
def pBeta : Prompt := { Name := "beta", Path := "", Content := "", Tags := [] }

/-- A concrete prompt. -/
def pAlpine : Prompt := { Name := "alpine", Path := "", Content := "", Tags := [] }

/-- A session state over two prompts with the cursor on the last row. -/
def twoPromptModel : SelectorModel :=
  { allPrompts := [pAlpha, pBeta]
    filtered := [pAlpha, pBeta]
    cursor := 1
    cancelled := false
    width := 0
    height := 0
    ready := false
    query := []
    filterOpts := { MaxResults := 20 }
    uiOpts := { TruncateLength := 120 }
    mode := .modeFilter }

/-- A session state whose filtered view is empty (query matched
nothing). -/
def emptyViewModel : SelectorModel :=
  { allPrompts := [pAlpha, pBeta]
    filtered := []
    cursor := 0
    cancelled := false
    width := 0
    height := 0
    ready := false
    query := "zzz".toList
    filterOpts := { MaxResults := 20 }
    uiOpts := { TruncateLength := 120 }
    mode := .modeFilter }

/-! Theorems. -/

/-- C8: a mode-toggle signal (escape) flips the mode between typing and
navigating and changes no other component of the selector state. -/
theorem escape_toggles_mode_only (m : SelectorModel) :
    ((update m (.key .esc)).1.mode =
      (if m.mode = .modeFilter then SelectorMode.modeNavigate else .modeFilter)) ∧
    (update m (.key .esc)).1.query = m.query ∧
    (update m (.key .esc)).1.filtered = m.filtered ∧
    (update m (.key .esc)).1.cursor = m.cursor ∧
    (update m (.key .esc)).1.cancelled = m.cancelled ∧
    (update m (.key .esc)).1.width = m.width ∧
    (update m (.key .esc)).1.height = m.height := by
  have h : (update m (.key .esc)).1 = toggleMode m := rfl
  rw [h]
  unfold toggleMode
  split <;> simp_all

/-- C9: started with an empty candidate list, the selector refuses to
start and signals the no-prompts error, independently of the terminal
state, the interactive session, and the fallback input. -/
theorem empty_prompts_refused (initialQuery : List Char) (opts : SearchOptions)
    (uiOpts : UIOptions) (isTerm : Bool) (tui : TUIRun)
    (line : Option (List Char)) :
    selectPromptWithQuery [] initialQuery opts uiOpts isTerm tui line =
      .errNoPrompts := by
  simp [selectPromptWithQuery]

/-- C10: in the fallback numbered selector, an exhausted input stream or
a blank (whitespace-only) line selects the first listed prompt with no
error. -/
theorem fallback_blank_line_first_prompt (p : Prompt) (ps : List Prompt)
    (line : Option (List Char))
    (h : line = none ∨ ∃ raw, line = some raw ∧ trimSpace raw = []) :
    selectPromptFallback (p :: ps) line = .ok p := by
  rcases h with h | ⟨raw, hl, ht⟩
  · subst h; rfl
  · subst hl; simp [selectPromptFallback, ht]

/-- Witness for C10 at a whitespace-only input line. -/
theorem fallback_blank_line_first_prompt_witness :
    selectPromptFallback [pAlpha, pBeta] (some [' ', '\t']) = .ok pAlpha :=
  fallback_blank_line_first_prompt pAlpha [pBeta] (some [' ', '\t'])
    (Or.inr ⟨[' ', '\t'], rfl, by decide⟩)

/-- C6: in every non-empty filtered view a move-down at the last index
wraps to 0 and a move-up at index 0 wraps to the last index; both moves
are no-ops on an empty view; and the move signals are honored by the
event handler regardless of the current mode. -/
theorem move_wraparound (m : SelectorModel) :
    (m.filtered ≠ [] → m.cursor = (m.filtered.length : Int) - 1 →
      (moveDown m).cursor = 0) ∧
    (m.filtered ≠ [] → m.cursor = 0 →
      (moveUp m).cursor = (m.filtered.length : Int) - 1) ∧
    (m.filtered = [] → moveUp m = m ∧ moveDown m = m) ∧
    (update m (.key .up)).1 = moveUp m ∧
    (update m (.key .ctrlP)).1 = moveUp m ∧
    (update m (.key .down)).1 = moveDown m ∧
    (update m (.key .ctrlN)).1 = moveDown m := by
  refine ⟨?_, ?_, ?_, rfl, rfl, rfl, rfl⟩
  · intro hne hc
    have hlen : (0 : Int) < (m.filtered.length : Int) := by
      have : 0 < m.filtered.length := List.length_pos.mpr hne
      omega
    unfold moveDown
    rw [if_neg hne]
    simp only [hc]
    have h1 : (m.filtered.length : Int) - 1 + 1 = (m.filtered.length : Int) := by
      omega
    rw [h1, Int.tmod_self]
  · intro hne hc
    unfold moveUp
    rw [if_neg hne, if_pos hc]
  · intro he
    unfold moveUp moveDown
    rw [if_pos he, if_pos he]
    exact ⟨rfl, rfl⟩

/-- Witness for C6 on a concrete two-row view: down from the last row
wraps to the top, up from the top wraps to the last row, and the moves
are no-ops on an empty view. -/
theorem move_wraparound_witness :
    (moveDown twoPromptModel).cursor = 0 ∧
    (moveUp emptyViewModel = emptyViewModel ∧
      moveDown emptyViewModel = emptyViewModel) ∧
    (update twoPromptModel (.key .down)).1 = moveDown twoPromptModel :=
  ⟨(move_wraparound twoPromptModel).1 (by decide) (by decide),
   (move_wraparound emptyViewModel).2.2.1 (by decide),
   (move_wraparound twoPromptModel).2.2.2.2.2.1⟩

/-- Counterexample to C1 as stated: a confirm signal on an empty
filtered view is NOT distinguishable by the caller from a cancel
signal.  The event handler marks the session cancelled on an empty
confirm, and `runInteractiveSelector` extracts the same
`ErrInvalidSelection` result from both final states. -/
theorem empty_confirm_indistinguishable_from_cancel :
    interactiveOutcome (update emptyViewModel (.key .enter)).1 =
      interactiveOutcome (update emptyViewModel (.key .ctrlC)).1 ∧
    interactiveOutcome (update emptyViewModel (.key .enter)).1 =
      .invalidSelection ∧
    (update emptyViewModel (.key .enter)).1.cancelled = true := by
  decide

/-- C1 amended: a confirm signal on an empty filtered view ends the
session (quit), sets the cancelled flag, and the caller receives the
same `ErrInvalidSelection` outcome a cancel signal produces, so the two
terminal outcomes are not distinguishable by the caller. -/
theorem empty_confirm_matches_cancel (m : SelectorModel)
    (h : m.filtered = []) :
    (update m (.key .enter)).2 = true ∧
    (update m (.key .enter)).1.cancelled = true ∧
    interactiveOutcome (update m (.key .enter)).1 = .invalidSelection ∧
    interactiveOutcome (update m (.key .enter)).1 =
      interactiveOutcome (update m (.key .ctrlC)).1 := by
  have henter : update m (.key .enter) =
      (if m.filtered = [] then { m with cancelled := true } else m, true) := rfl
  have hcancel : update m (.key .ctrlC) = ({ m with cancelled := true }, true) := rfl
  rw [henter, hcancel, if_pos h]
  refine ⟨rfl, rfl, ?_, ?_⟩ <;> simp [interactiveOutcome]

/-- Witness for the amended C1 on a concrete empty-view state. -/
theorem empty_confirm_matches_cancel_witness :
    emptyViewModel.filtered = [] ∧
    ((update emptyViewModel (.key .enter)).2 = true ∧
      (update emptyViewModel (.key .enter)).1.cancelled = true ∧
      interactiveOutcome (update emptyViewModel (.key .enter)).1 =
        .invalidSelection ∧
      interactiveOutcome (update emptyViewModel (.key .enter)).1 =
        interactiveOutcome (update emptyViewModel (.key .ctrlC)).1) :=
  ⟨by decide, empty_confirm_matches_cancel emptyViewModel (by decide)⟩

/-- A one-prompt session state with an empty query, used to exercise
the numeric-jump path. -/
def onePromptModel : SelectorModel :=
  { allPrompts := [pAlpha]
    filtered := [pAlpha]
    cursor := 0
    cancelled := false
    width := 0
    height := 0
    ready := false
    query := []
    filterOpts := { MaxResults := 20 }
    uiOpts := { TruncateLength := 120 }
    mode := .modeFilter }

/-- Counterexample to C2 as stated: typing the out-of-range digit `9`
with an empty query over a one-row view leaves the state entirely
unchanged; in particular the query is NOT extended with the typed
character. -/
theorem out_of_range_jump_not_typed :
    handleRunes onePromptModel ['9'] = onePromptModel ∧
    (handleRunes onePromptModel ['9']).query ≠ ['9'] := by
  decide

/-- C2 amended: in typing mode with an empty query, an all-digit input
is always consumed by the jump interpretation and never reaches the
typing path: an in-range parsed index moves the cursor to index - 1
leaving everything else unchanged, while an out-of-range index (or a
parse failure on a value overflowing 64-bit int) leaves the state
entirely unchanged — the query is not extended. -/
theorem numeric_input_consumed (m : SelectorModel) (rs : List Char)
    (hmode : m.mode = .modeFilter) (hq : m.query = [])
    (hd : isDigits rs = true) :
    (∀ idx : Int, atoiGo rs = some idx →
      1 ≤ idx → idx ≤ (m.filtered.length : Int) →
      handleRunes m rs = { m with cursor := idx - 1 }) ∧
    (∀ idx : Int, atoiGo rs = some idx →
      ¬(1 ≤ idx ∧ idx ≤ (m.filtered.length : Int)) →
      handleRunes m rs = m) ∧
    (atoiGo rs = none → handleRunes m rs = m) := by
  have hrs : rs ≠ [] := by
    intro hcon
    rw [hcon] at hd
    simp [isDigits] at hd
  have hnav : ¬ m.mode = SelectorMode.modeNavigate := by
    rw [hmode]; intro hcon; cases hcon
  refine ⟨?_, ?_, ?_⟩
  · intro idx ha h1 h2
    unfold handleRunes
    rw [if_neg hrs, if_neg hnav, if_pos ⟨hq, hd⟩, ha]
    exact if_pos ⟨h1, h2⟩
  · intro idx ha hrange
    unfold handleRunes
    rw [if_neg hrs, if_neg hnav, if_pos ⟨hq, hd⟩, ha]
    exact if_neg hrange
  · intro ha
    unfold handleRunes
    rw [if_neg hrs, if_neg hnav, if_pos ⟨hq, hd⟩, ha]

/-- Witness for the amended C2: over a one-row view, `1` jumps the
cursor to row 0 and the out-of-range `9` is a no-op. -/
theorem numeric_input_consumed_witness :
    handleRunes onePromptModel ['1'] = { onePromptModel with cursor := 0 } ∧
    handleRunes onePromptModel ['9'] = onePromptModel := by
  constructor
  · have h := (numeric_input_consumed onePromptModel ['1'] (by decide) rfl
      (by decide)).1 1 (by decide) (by decide) (by decide)
    simpa using h
  · exact (numeric_input_consumed onePromptModel ['9'] (by decide) rfl
      (by decide)).2.1 9 (by decide) (by decide)

/-- The cursor fix-up never touches the filtered view. -/
theorem fixCursor_filtered (m2 : SelectorModel) (trimmed : List Char) :
    (fixCursor m2 trimmed).filtered = m2.filtered := by
  unfold fixCursor
  repeat' split
  all_goals rfl

/-- The cursor fix-up never touches the query. -/
theorem fixCursor_query (m2 : SelectorModel) (trimmed : List Char) :
    (fixCursor m2 trimmed).query = m2.query := by
  unfold fixCursor
  repeat' split
  all_goals rfl

/-- The cursor fix-up never touches the candidate snapshot. -/
theorem fixCursor_allPrompts (m2 : SelectorModel) (trimmed : List Char) :
    (fixCursor m2 trimmed).allPrompts = m2.allPrompts := by
  unfold fixCursor
  repeat' split
  all_goals rfl

/-- The filter recomputation stores the query it was handed. -/
theorem applyQueryFilter_query (m : SelectorModel) (q : List Char) :
    (applyQueryFilter m q).query = q := by
  simp only [applyQueryFilter]
  repeat' split
  all_goals rfl

/-- The filter recomputation never touches the candidate snapshot. -/
theorem applyQueryFilter_allPrompts (m : SelectorModel) (q : List Char) :
    (applyQueryFilter m q).allPrompts = m.allPrompts := by
  simp only [applyQueryFilter]
  repeat' split
  all_goals rfl

/-- The filter recomputation never touches the cursor. -/
theorem applyQueryFilter_cursor (m : SelectorModel) (q : List Char) :
    (applyQueryFilter m q).cursor = m.cursor := by
  simp only [applyQueryFilter]
  repeat' split
  all_goals rfl

/-- The filter step with a blank trimmed query installs the full
candidate list sorted by name (the cursor fix-up never touches
`filtered`). -/
theorem applyQuery_filtered_of_blank (m : SelectorModel) (q : List Char)
    (h : trimSpace q = []) :
    (applyQuery m q).filtered = sortPrompts m.allPrompts := by
  unfold applyQuery
  rw [fixCursor_filtered]
  unfold applyQueryFilter
  simp only [h, reduceIte]

/-- `sortPrompts` permutes its input. -/
theorem sortPrompts_perm (ps : List Prompt) : (sortPrompts ps).Perm ps :=
  List.perm_insertionSort promptLe ps

/-- `sortPrompts` sorts by ascending name. -/
theorem sortPrompts_sorted (ps : List Prompt) :
    (sortPrompts ps).Sorted promptLe :=
  List.sorted_insertionSort promptLe ps

/-- C5: for an empty (or whitespace-only) query the filtered view is
the full candidate set ordered by ascending case-sensitive
lexicographic name order. -/
theorem empty_query_full_sorted (m : SelectorModel) (q : List Char)
    (h : trimSpace q = []) :
    (applyQuery m q).filtered = sortPrompts m.allPrompts ∧
    (applyQuery m q).filtered.Perm m.allPrompts ∧
    (applyQuery m q).filtered.Sorted promptLe := by
  have hf := applyQuery_filtered_of_blank m q h
  exact ⟨hf, hf ▸ sortPrompts_perm m.allPrompts,
    hf ▸ sortPrompts_sorted m.allPrompts⟩

/-- A session state whose candidate snapshot is not in name order. -/
def unsortedModel : SelectorModel :=
  { allPrompts := [pBeta, pAlpha, pAlpine]
    filtered := [pBeta, pAlpha, pAlpine]
    cursor := 0
    cancelled := false
    width := 0
    height := 0
    ready := false
    query := []
    filterOpts := { MaxResults := 20 }
    uiOpts := { TruncateLength := 120 }
    mode := .modeFilter }

/-- Witness for C5 on a concrete whitespace-only query. -/
theorem empty_query_full_sorted_witness :
    (applyQuery unsortedModel [' ']).filtered =
      sortPrompts unsortedModel.allPrompts ∧
    (applyQuery unsortedModel [' ']).filtered.Perm unsortedModel.allPrompts ∧
    (applyQuery unsortedModel [' ']).filtered.Sorted promptLe :=
  empty_query_full_sorted unsortedModel [' '] (by decide)

/-- The filter step stores exactly the query it was handed. -/
theorem applyQuery_query (m : SelectorModel) (q : List Char) :
    (applyQuery m q).query = q := by
  unfold applyQuery
  rw [fixCursor_query, applyQueryFilter_query]

/-- The filter step never touches the candidate snapshot. -/
theorem applyQuery_allPrompts (m : SelectorModel) (q : List Char) :
    (applyQuery m q).allPrompts = m.allPrompts := by
  unfold applyQuery
  rw [fixCursor_allPrompts, applyQueryFilter_allPrompts]

/-- Appending a character sequence to the query one keystroke at a
time through the filter step. -/
def appendChars (m : SelectorModel) (cs : List Char) : SelectorModel :=
  cs.foldl (fun m c => applyQuery m (m.query ++ [c])) m

/-- Iterated deletion signals. -/
def backspaceN : Nat → SelectorModel → SelectorModel
  | 0, m => m
  | n + 1, m => backspaceN n (backspace m)

/-- After appending, the stored query is the old query extended by the
appended characters. -/
theorem appendChars_query (m : SelectorModel) (cs : List Char) :
    (appendChars m cs).query = m.query ++ cs := by
  induction cs generalizing m with
  | nil => simp [appendChars]
  | cons c cs ih =>
    show (appendChars (applyQuery m (m.query ++ [c])) cs).query = _
    rw [ih, applyQuery_query]
    simp

/-- Appending never touches the candidate snapshot. -/
theorem appendChars_allPrompts (m : SelectorModel) (cs : List Char) :
    (appendChars m cs).allPrompts = m.allPrompts := by
  induction cs generalizing m with
  | nil => rfl
  | cons c cs ih =>
    show (appendChars (applyQuery m (m.query ++ [c])) cs).allPrompts = _
    rw [ih, applyQuery_allPrompts]

/-- Deleting every character of a non-empty query lands the filtered
view on the empty-query ordering. -/
theorem backspaceN_drains (n : Nat) (m : SelectorModel)
    (h : m.query.length = n + 1) :
    (backspaceN (n + 1) m).filtered = sortPrompts m.allPrompts := by
  induction n generalizing m with
  | zero =>
    have hq : m.query ≠ [] := by
      intro hcon; rw [hcon] at h; simp at h
    show (backspace m).filtered = _
    unfold backspace
    rw [if_neg hq]
    have hdrop : m.query.dropLast = [] := by
      cases hq2 : m.query with
      | nil => exact absurd hq2 hq
      | cons a l =>
        rw [hq2] at h
        simp at h
        subst h
        rfl
    rw [hdrop]
    exact applyQuery_filtered_of_blank m [] rfl
  | succ n ih =>
    have hq : m.query ≠ [] := by
      intro hcon; rw [hcon] at h; simp at h
    show (backspaceN (n + 1) (backspace m)).filtered = _
    have hb : backspace m = applyQuery m m.query.dropLast := by
      unfold backspace; rw [if_neg hq]
    have hlen : (backspace m).query.length = n + 1 := by
      rw [hb, applyQuery_query, List.length_dropLast, h]
      omega
    rw [ih (backspace m) hlen, hb, applyQuery_allPrompts]

/-- C7: from any state with an empty query, appending any non-empty
character sequence through the filter step and then deleting the same
number of characters returns the filtered view to exactly the
empty-query ordering. -/
theorem append_delete_roundtrip (m : SelectorModel) (cs : List Char)
    (hq : m.query = []) (hcs : cs ≠ []) :
    (backspaceN cs.length (appendChars m cs)).filtered =
      sortPrompts m.allPrompts := by
  obtain ⟨n, hn⟩ : ∃ n, cs.length = n + 1 := by
    cases hc : cs with
    | nil => exact absurd hc hcs
    | cons a l => exact ⟨l.length, by simp⟩
  have hq2 : (appendChars m cs).query.length = n + 1 := by
    rw [appendChars_query, hq, List.nil_append, hn]
  rw [hn, backspaceN_drains n (appendChars m cs) hq2, appendChars_allPrompts]

/-- Witness for C7: one appended character, one deletion, on a state
whose snapshot is out of name order. -/
theorem append_delete_roundtrip_witness :
    (backspaceN (['a'].length) (appendChars unsortedModel ['a'])).filtered =
      sortPrompts unsortedModel.allPrompts :=
  append_delete_roundtrip unsortedModel ['a'] rfl (by decide)

/-- The cursor fix-up establishes the cursor invariant from any state
with a non-negative cursor. -/
theorem fixCursor_inv (m2 : SelectorModel) (trimmed : List Char)
    (h0 : 0 ≤ m2.cursor) : Inv (fixCursor m2 trimmed) := by
  unfold fixCursor
  split
  next hemp =>
    exact ⟨le_refl 0, fun hne => absurd hemp hne, fun _ => rfl⟩
  next hne =>
    have hpos : 0 < m2.filtered.length := List.length_pos.mpr hne
    have hposI : (0:Int) < (m2.filtered.length : Int) := by exact_mod_cast hpos
    split
    next hge =>
      split
      next =>
        exact ⟨le_refl 0, fun _ => by simpa using hposI,
          fun hcon => absurd hcon hne⟩
      next =>
        exact ⟨by simp <;> omega, fun _ => by simp <;> omega,
          fun hcon => absurd hcon hne⟩
    next hlt =>
      push_neg at hlt
      split
      next =>
        exact ⟨le_refl 0, fun _ => by simpa using hposI,
          fun hcon => absurd hcon hne⟩
      next =>
        exact ⟨h0, fun _ => hlt, fun hcon => absurd hcon hne⟩

/-- The filter step establishes the cursor invariant from any state
with a non-negative cursor. -/
theorem applyQuery_inv (m : SelectorModel) (q : List Char)
    (h0 : 0 ≤ m.cursor) : Inv (applyQuery m q) := by
  unfold applyQuery
  exact fixCursor_inv _ _ (by rw [applyQueryFilter_cursor]; exact h0)

/-- Cursor movement up preserves the invariant. -/
theorem moveUp_inv (m : SelectorModel) (h : Inv m) : Inv (moveUp m) := by
  obtain ⟨h0, hlt, he⟩ := h
  unfold moveUp
  split
  next => exact ⟨h0, hlt, he⟩
  next hne =>
    have hpos : 0 < m.filtered.length := List.length_pos.mpr hne
    split
    next =>
      refine ⟨by simp <;> omega, fun _ => by simp <;> omega,
        fun hcon => absurd hcon hne⟩
    next hc0 =>
      have hcl := hlt hne
      refine ⟨by simp <;> omega, fun _ => by simp <;> omega,
        fun hcon => absurd hcon hne⟩

/-- Cursor movement down preserves the invariant. -/
theorem moveDown_inv (m : SelectorModel) (h : Inv m) : Inv (moveDown m) := by
  obtain ⟨h0, hlt, he⟩ := h
  unfold moveDown
  split
  next => exact ⟨h0, hlt, he⟩
  next hne =>
    have hpos : 0 < m.filtered.length := List.length_pos.mpr hne
    have hposI : (0:Int) < (m.filtered.length : Int) := by exact_mod_cast hpos
    refine ⟨?_, fun _ => ?_, fun hcon => absurd hcon hne⟩
    · simpa using Int.tmod_nonneg (m.filtered.length : Int) (by omega)
    · simpa using Int.tmod_lt_of_pos (m.cursor + 1) hposI

/-- Deletion preserves the invariant. -/
theorem backspace_inv (m : SelectorModel) (h : Inv m) : Inv (backspace m) := by
  unfold backspace
  split
  next => exact h
  next => exact applyQuery_inv m _ h.1

/-- Clearing the query preserves the invariant. -/
theorem clearQuery_inv (m : SelectorModel) (h : Inv m) :
    Inv (clearQuery m) := by
  unfold clearQuery
  split
  next => exact h
  next => exact applyQuery_inv m _ h.1

/-- Toggling the mode preserves the invariant. -/
theorem toggleMode_inv (m : SelectorModel) (h : Inv m) :
    Inv (toggleMode m) := by
  unfold toggleMode
  split <;> exact h

/-- Character input preserves the invariant. -/
theorem handleRunes_inv (m : SelectorModel) (rs : List Char) (h : Inv m) :
    Inv (handleRunes m rs) := by
  obtain ⟨h0, hlt, he⟩ := h
  unfold handleRunes
  split
  next => exact ⟨h0, hlt, he⟩
  next =>
    split
    next =>
      split
      next =>
        split
        next => exact moveDown_inv m ⟨h0, hlt, he⟩
        next =>
          split
          next => exact moveUp_inv m ⟨h0, hlt, he⟩
          next => exact ⟨h0, hlt, he⟩
      next => exact ⟨h0, hlt, he⟩
    next =>
      split
      next =>
        split
        next idx heq =>
          split
          next hrange =>
            have hposI : (0:Int) < (m.filtered.length : Int) := by omega
            refine ⟨by simp <;> omega, fun _ => by simp <;> omega, fun hcon => ?_⟩
            rw [hcon] at hrange
            simp at hrange
            omega
          next => exact ⟨h0, hlt, he⟩
        next => exact ⟨h0, hlt, he⟩
      next => exact applyQuery_inv m _ h0

/-- The runes tail of the event handler preserves the invariant. -/
theorem afterSwitch_inv (m : SelectorModel) (k : KeyMsg) (h : Inv m) :
    Inv (afterSwitch m k).1 := by
  unfold afterSwitch
  split
  next => exact handleRunes_inv m _ h
  next => exact h

/-- C3: every event the selector handles preserves the cursor
invariant: the cursor stays a valid index into the filtered view
whenever the view is non-empty, and stays 0 whenever it is empty. -/
theorem update_preserves_invariant (m : SelectorModel) (msg : Msg)
    (h : Inv m) : Inv (update m msg).1 := by
  cases msg with
  | windowSize w hh => exact h
  | key k =>
    simp only [update]
    split
    next => exact toggleMode_inv m h
    next =>
      split
      next => exact h
      next =>
        split
        next =>
          split
          next => exact h
          next => exact backspace_inv m h
        next =>
          split
          next =>
            split
            next => exact h
            next => exact h
          next =>
            split
            next => exact afterSwitch_inv _ k (moveUp_inv m h)
            next =>
              split
              next => exact afterSwitch_inv _ k (moveDown_inv m h)
              next =>
                split
                next =>
                  refine afterSwitch_inv _ k ?_
                  split
                  next => exact h
                  next => exact clearQuery_inv m h
                next =>
                  split
                  next =>
                    split
                    next => exact moveDown_inv m h
                    next => exact afterSwitch_inv _ k h
                  next =>
                    split
                    next =>
                      split
                      next => exact moveUp_inv m h
                      next => exact afterSwitch_inv _ k h
                    next => exact afterSwitch_inv _ k h

/-- Witness for C3 at a concrete state and event. -/
theorem update_preserves_invariant_witness :
    Inv twoPromptModel ∧ Inv (update twoPromptModel (.key .down)).1 :=
  ⟨by decide, update_preserves_invariant twoPromptModel (.key .down) (by decide)⟩

/-- The scoring recursion succeeds exactly when the query is a
case-insensitive subsequence of the name (characters in order, not
necessarily contiguous). -/
theorem scoreGo_isSome_iff (n q : List Char) (pm : Bool) (pv : Option Char)
    (pos : Nat) :
    (scoreGo q n pm pv pos).isSome = true ↔
      (q.map Char.toLower).Sublist (n.map Char.toLower) := by
  induction n generalizing q pm pv pos with
  | nil =>
    cases q with
    | nil => simp [scoreGo]
    | cons qc qs => simp [scoreGo]
  | cons nc ns ih =>
    cases q with
    | nil => simp [scoreGo]
    | cons qc qs =>
      by_cases h : qc.toLower = nc.toLower
      · simp only [scoreGo]
        rw [if_pos h]
        simp only [Option.isSome_map', List.map_cons, h, List.cons_sublist_cons]
        exact ih qs true (some nc) (pos + 1)
      · simp only [scoreGo, if_neg h, List.map_cons]
        rw [ih (qc :: qs) false (some nc) (pos + 1)]
        constructor
        · intro hs
          simpa using hs.cons nc.toLower
        · intro hs
          rcases List.sublist_cons_iff.mp hs with hs2 | ⟨r, heq, _⟩
          · simpa using hs2
          · exact absurd (List.head_eq_of_cons_eq heq) h

/-- Every member of the scored, sorted, truncated result list comes
from the candidate list with a successful case-insensitive subsequence
match of the query against its name. -/
theorem mem_ranked_subsequence (prompts : List Prompt) (query : List Char)
    (p : Prompt)
    (hp : p ∈ (List.insertionSort scoreLe (prompts.filterMap
      (fun a => (matchScore query a.Name.toList).map (fun s => (a, s))))).map
        Prod.fst) :
    p ∈ prompts ∧
      (query.map Char.toLower).Sublist (p.Name.toList.map Char.toLower) := by
  rcases List.mem_map.mp hp with ⟨pair, hpair, hfst⟩
  have hpair2 := (List.perm_insertionSort scoreLe _).mem_iff.mp hpair
  rcases List.mem_filterMap.mp hpair2 with ⟨a, ha, heq⟩
  rcases Option.map_eq_some'.mp heq with ⟨s, hscore, hpaireq⟩
  have ha_p : a = p := by rw [← hpaireq] at hfst; exact hfst
  subst ha_p
  refine ⟨ha, ?_⟩
  have hsome : (matchScore query a.Name.toList).isSome = true := by
    rw [hscore]; rfl
  exact (scoreGo_isSome_iff a.Name.toList query false none 0).mp hsome

/-- C4: for every non-empty query, each candidate the ranking engine
returns comes from the candidate list and contains the query's
characters as a case-insensitive subsequence of its name; equivalently,
no candidate lacking such a subsequence match appears in the result. -/
theorem search_members_subsequence (prompts : List Prompt) (query : List Char)
    (opts : SearchOptions) (hq : query ≠ []) (p : Prompt)
    (hp : p ∈ searchSearch prompts query opts) :
    p ∈ prompts ∧
      (query.map Char.toLower).Sublist (p.Name.toList.map Char.toLower) := by
  unfold searchSearch at hp
  rw [if_neg hq] at hp
  by_cases hcap : opts.MaxResults > 0
  · rw [if_pos hcap] at hp
    exact mem_ranked_subsequence prompts query p (List.take_subset _ _ hp)
  · rw [if_neg hcap] at hp
    exact mem_ranked_subsequence prompts query p hp

/-- Witness for C4: the spec's own example — query alp over
candidates alpha, beta, alpine — with the member alpha of the result. -/
theorem search_members_subsequence_witness :
    pAlpha ∈ searchSearch [pAlpha, pBeta, pAlpine] "alp".toList
        { MaxResults := 20 } ∧
      pAlpha ∈ [pAlpha, pBeta, pAlpine] ∧
      ("alp".toList.map Char.toLower).Sublist
        (pAlpha.Name.toList.map Char.toLower) :=
  ⟨by decide,
   search_members_subsequence [pAlpha, pBeta, pAlpine] "alp".toList
     { MaxResults := 20 } (by decide) pAlpha (by decide)⟩

end PMC
